import Mathlib

/-!
Verification of the windz adaptive poll scheduler, SSE broadcast hub and
latest-value store, as a shallow embedding of the Go sources
(`internal/observations/manager.go`, `internal/sse/manager.go`, `main.go`).

Modelling conventions:
* `time.Time` and `time.Duration` are both `Int` nanoseconds (Go stores both
  as int64 nanoseconds; none of the verified code paths can overflow int64).
* `float64` measurement and rate fields are modelled as `ℚ`; the verified
  claims only use order comparisons and exact small ratios on them.
* Go maps keyed by station id are modelled as `String → Option _` functions
  or as lists filtered by key, whichever the claim needs.
-/

namespace Windz

/-- Nanoseconds per second (Go `time.Second`). -/
def nsPerSec : Int := 1000000000

/-- `IntervalFast = 1 * time.Minute` from manager.go. -/
def IntervalFast : Int := 60 * nsPerSec

/-- `IntervalMedium = 10 * time.Minute` from manager.go. -/
def IntervalMedium : Int := 600 * nsPerSec

/-- `IntervalSlow = 60 * time.Minute` from manager.go. -/
def IntervalSlow : Int := 3600 * nsPerSec

/-- `IntervalUltraSlow = 24 * time.Hour` from manager.go. -/
def IntervalUltraSlow : Int := 86400 * nsPerSec

/-- `FMIWindObservation` from internal/observations/manager.go: timestamp plus
three wind measurements (already defaulted to 0 where the upstream value was
absent, as the Go conversion loop does). -/
structure FMIWindObservation where
  timestamp : Int
  windSpeed : ℚ
  windGust : ℚ
  windDirection : ℚ
deriving DecidableEq

/-- The zero value of `FMIWindObservation` (returned by Go
`updatePollingState` when there is no data). -/
def zeroObservation : FMIWindObservation :=
  { timestamp := 0, windSpeed := 0, windGust := 0, windDirection := 0 }

/-- `PollingState` from internal/observations/interface.go (field for field,
same order as the Go struct). -/
structure PollingState where
  stationID : String
  currentInterval : Int
  consecutiveMisses : Int
  lastPolled : Int
  lastObservation : Int
  successRate : ℚ
  totalPolls : Int
  successfulPolls : Int
deriving DecidableEq

/-- Lazy initialisation in `pollDueStations`:
`&PollingState{StationID: station.ID, CurrentInterval: IntervalFast}`
(all other fields are Go zero values). -/
def newPollingState (sid : String) : PollingState :=
  { stationID := sid
    currentInterval := IntervalFast
    consecutiveMisses := 0
    lastPolled := 0
    lastObservation := 0
    successRate := 0
    totalPolls := 0
    successfulPolls := 0 }

/-- Consecutive inter-observation gaps `observations[i].Timestamp.Sub(observations[i-1].Timestamp)`
from `analyzeObservationIntervals`. -/
def observationGaps : List FMIWindObservation → List Int
  | a :: b :: rest => (b.timestamp - a.timestamp) :: observationGaps (b :: rest)
  | _ => []

/-- `analyzeObservationIntervals` from manager.go: keep gaps strictly between
30s and 2h, return the minimum and `true`, or `(IntervalFast, false)` when
fewer than two observations or no gap survives the filter. -/
def analyzeObservationIntervals (obs : List FMIWindObservation) : Int × Bool :=
  if obs.length < 2 then (IntervalFast, false)
  else
    let intervals := (observationGaps obs).filter
      (fun g => decide (30 * nsPerSec < g ∧ g < 7200 * nsPerSec))
    match intervals with
    | [] => (IntervalFast, false)
    | h :: t => (t.foldl min h, true)

/-- `roundToStandardInterval` from manager.go. -/
def roundToStandardInterval (d : Int) : Int :=
  if d ≤ 90 * nsPerSec then IntervalFast
  else if d ≤ 720 * nsPerSec then IntervalMedium
  else if d ≤ 4200 * nsPerSec then IntervalSlow
  else IntervalUltraSlow

/-- `getNextSlowerInterval` from manager.go (the Go `switch` with a
`default: return IntervalUltraSlow` arm). -/
def getNextSlowerInterval (current : Int) : Int :=
  if current = IntervalFast then IntervalMedium
  else if current = IntervalMedium then IntervalSlow
  else if current = IntervalSlow then IntervalUltraSlow
  else IntervalUltraSlow

/-- `getEffectivePollingInterval` from manager.go: without SSE clients the
effective interval is `IntervalSlow`, otherwise the stored one. -/
def getEffectivePollingInterval (baseInterval : Int) (hasSSEClients : Bool) : Int :=
  if !hasSSEClients then IntervalSlow else baseInterval

/-- `updatePollingState` from manager.go. Takes `time.Now()` as the explicit
argument `now`; returns the new state together with the Go return pair
`(lastObservation, hadData)`. The field updates follow the Go statement
order (`SuccessRate` is computed from the already-incremented counters). -/
def updatePollingState (now : Int) (s : PollingState) (obs : List FMIWindObservation) :
    PollingState × FMIWindObservation × Bool :=
  let s1 := { s with lastPolled := now, totalPolls := s.totalPolls + 1 }
  match obs with
  | [] =>
      let s2 := { s1 with consecutiveMisses := s1.consecutiveMisses + 1 }
      let s3 := { s2 with successRate := (s2.successfulPolls : ℚ) / (s2.totalPolls : ℚ) }
      let s4 :=
        if 2 ≤ s3.consecutiveMisses then
          { s3 with currentInterval := getNextSlowerInterval s3.currentInterval
                    consecutiveMisses := 0 }
        else s3
      (s4, zeroObservation, false)
  | o :: rest =>
      let lastObs := (o :: rest).getLast (List.cons_ne_nil o rest)
      let s2 := { s1 with successfulPolls := s1.successfulPolls + 1
                          consecutiveMisses := 0
                          lastObservation := lastObs.timestamp }
      let s3 := { s2 with successRate := (s2.successfulPolls : ℚ) / (s2.totalPolls : ℚ) }
      let s4 :=
        if 2 ≤ (o :: rest).length then
          match analyzeObservationIntervals (o :: rest) with
          | (minInterval, ok) =>
              if ok ∧ minInterval < s3.currentInterval then
                { s3 with currentInterval := roundToStandardInterval minInterval }
              else s3
        else s3
      (s4, lastObs, true)

/-- `updateFailedPollingState` from manager.go: increment the counters, stamp
`LastPolled`, and demote once `ConsecutiveMisses` has reached 3 (without
resetting the counter). -/
def updateFailedPollingState (now : Int) (s : PollingState) : PollingState :=
  let s1 := { s with totalPolls := s.totalPolls + 1
                     consecutiveMisses := s.consecutiveMisses + 1
                     lastPolled := now }
  if 3 ≤ s1.consecutiveMisses then
    { s1 with currentInterval := getNextSlowerInterval s1.currentInterval }
  else s1

/-! ### Due check and time-window batching (`pollDueStations`, `processBatchedPolling`) -/

/-- The due check of `pollDueStations` phase 1 (manager.go):
`now.Sub(state.LastPolled) >= effectiveInterval` with the effective interval
from `getEffectivePollingInterval`. -/
def isDue (now : Int) (hasSSEClients : Bool) (s : PollingState) : Bool :=
  decide (getEffectivePollingInterval s.currentInterval hasSSEClients ≤ now - s.lastPolled)

/-- Phase 1 of `pollDueStations` (manager.go): the due subset `toPoll`, as
value copies of the per-station states (after lazy initialisation). -/
def dueStates (now : Int) (hasSSEClients : Bool) (states : List PollingState) :
    List PollingState :=
  states.filter (isDue now hasSSEClients)

/-- `const maxBatchSize = 20` from `processBatchedPolling`. -/
def maxBatchSize : Nat := 20

/-- Go `t.Truncate(time.Second)`: round down to a whole second.  Int `/` and
`%` in Lean are floor division/remainder, which matches Go's `Truncate`
(Go truncates on the absolute time since year 1, i.e. rounds down). -/
def truncateToSecond (t : Int) : Int := t - t % nsPerSec

/-- The effective window start of one due station (`processBatchedPolling`):
the default start, or `LastObservation.Add(time.Second).Truncate(time.Second)`
when the last observation is strictly after the default start. -/
def effectiveStartTime (defaultStart : Int) (s : PollingState) : Int :=
  if defaultStart < s.lastObservation then truncateToSecond (s.lastObservation + nsPerSec)
  else defaultStart

/-- The Go grouping `timeWindowGroups[effectiveStartTime] = append(...)`: the
stations of `toPoll` stored under group key `k`, in order. -/
def timeWindowGroup (defaultStart : Int) (toPoll : List PollingState) (k : Int) :
    List PollingState :=
  toPoll.filter (fun s => decide (effectiveStartTime defaultStart s = k))

/-- The batch-splitting loop `for start := 0; start < len(indices); start += maxBatchSize`
of `processBatchedPolling`, with fuel for termination (the fuel `l.length`
in `batchesOf` always suffices because `k > 0`). -/
def chunksOfAux {α : Type} (k : Nat) : Nat → List α → List (List α)
  | 0, _ => []
  | _, [] => []
  | fuel + 1, l@(_ :: _) => l.take k :: chunksOfAux k fuel (l.drop k)

/-- Split a list into consecutive batches of at most `k` elements. -/
def batchesOf {α : Type} (k : Nat) (l : List α) : List (List α) :=
  chunksOfAux k l.length l

/-- The batches actually fetched for the time-window group `k`:
the group, split into batches of at most `maxBatchSize` stations. -/
def batchesForGroup (defaultStart : Int) (toPoll : List PollingState) (k : Int) :
    List (List PollingState) :=
  batchesOf maxBatchSize (timeWindowGroup defaultStart toPoll k)

/-! ### Lock/network event traces of one polling round

`pollDueStationsTrace` mirrors `pollDueStations` in
internal/observations/manager.go: acquire and release `pollingStatesMutex`
around phase 1, run one fetch per batch with no lock held, then acquire and
release the lock again for the write-back (phase 3 runs only when `toPoll`
is non-empty, as in the Go early return).
`legacyPollDueStationsTrace` mirrors `pollDueStations` in the root `main.go`:
`pollingStatesMutex.Lock()` with `defer Unlock()`, so every fetch of the
round runs under the lock (its due check also uses the stored interval
directly, with no SSE-client test). -/

/-- One event on the PollState lock / network-call trace of a polling round. -/
inductive LockEv where
  | lock
  | unlock
  | net
deriving DecidableEq

/-- One network fetch per batch of each time-window group (group keys in
first-appearance order; Go map iteration order does not change the multiset
of fetches). -/
def processBatchedPollingTrace (defaultStart : Int) (toPoll : List PollingState) :
    List LockEv :=
  ((toPoll.map (effectiveStartTime defaultStart)).dedup).flatMap
    (fun k => (batchesForGroup defaultStart toPoll k).map (fun _ => LockEv.net))

/-- Lock/network trace of `pollDueStations` (internal/observations/manager.go). -/
def pollDueStationsTrace (now : Int) (hasSSEClients : Bool) (defaultStart : Int)
    (states : List PollingState) : List LockEv :=
  let toPoll := dueStates now hasSSEClients states
  LockEv.lock :: LockEv.unlock ::
    (if toPoll.isEmpty then []
     else processBatchedPollingTrace defaultStart toPoll ++ [LockEv.lock, LockEv.unlock])

/-- Lock/network trace of the legacy `pollDueStations` (root main.go). -/
def legacyPollDueStationsTrace (now : Int) (defaultStart : Int)
    (states : List PollingState) : List LockEv :=
  let toPoll := states.filter (fun s => decide (s.currentInterval ≤ now - s.lastPolled))
  LockEv.lock ::
    ((if toPoll.isEmpty then [] else processBatchedPollingTrace defaultStart toPoll)
      ++ [LockEv.unlock])

/-- Scan a trace with the current lock depth and report whether any network
call happens while the lock is held. -/
def netWhileLockedAux : Nat → List LockEv → Bool
  | _, [] => false
  | d, LockEv.lock :: r => netWhileLockedAux (d + 1) r
  | d, LockEv.unlock :: r => netWhileLockedAux (d - 1) r
  | d, LockEv.net :: r => decide (0 < d) || netWhileLockedAux d r

/-- Whether some network call of the trace runs while the PollState lock is held. -/
def netWhileLocked (tr : List LockEv) : Bool :=
  netWhileLockedAux 0 tr

/-! ### Upstream conversion/validity filter and the latest-value store -/

/-- One parsed upstream observation as the collaborator returns it
(`obs.WindSpeed` etc. are `*float64`, i.e. independently nullable). -/
structure ParsedObservation where
  timestamp : Int
  windSpeed : Option ℚ
  windGust : Option ℚ
  windDirection : Option ℚ
deriving DecidableEq

/-- The conversion step of `fetchWindDataBatch`: nil measurements become the
Go zero value 0. -/
def convertObservation (o : ParsedObservation) : FMIWindObservation :=
  { timestamp := o.timestamp
    windSpeed := o.windSpeed.getD 0
    windGust := o.windGust.getD 0
    windDirection := o.windDirection.getD 0 }

/-- The per-station result list built by `fetchWindDataBatch`: convert each
observation and keep it only when `windObs.WindSpeed >= 0 && windObs.WindSpeed < 100`
("Only include valid observations"). -/
def filterValidObservations (l : List ParsedObservation) : List FMIWindObservation :=
  (l.map convertObservation).filter
    (fun w => decide (0 ≤ w.windSpeed ∧ w.windSpeed < 100))

/-- `Station` from internal/stations/interface.go. -/
structure Station where
  id : String
  name : String
  region : String
  latitude : ℚ
  longitude : ℚ
deriving DecidableEq

/-- `WindObservation` from internal/observations/interface.go. -/
structure WindObservation where
  stationID : String
  stationName : String
  region : String
  timestamp : Int
  windSpeed : ℚ
  windGust : ℚ
  windDirection : ℚ
  updatedAt : Int
deriving DecidableEq

/-- Station lookup (`stationMgr.GetStation`). -/
def getStation (stations : List Station) (sid : String) : Option Station :=
  stations.find? (fun st => decide (st.id = sid))

/-- The latest-value store `windData` (a map station id → latest reading). -/
def WindDataStore : Type := String → Option WindObservation

/-- `updateWindData` from manager.go: look the station up (no-op when
unknown), build the `WindObservation` and upsert it under the station id.
The SSE broadcast it then performs does not touch the store. -/
def updateWindData (stations : List Station) (store : WindDataStore)
    (now : Int) (sid : String) (o : FMIWindObservation) : WindDataStore :=
  match getStation stations sid with
  | none => store
  | some station =>
      fun q =>
        if q = sid then
          some { stationID := sid
                 stationName := station.name
                 region := station.region
                 timestamp := o.timestamp
                 windSpeed := o.windSpeed
                 windGust := o.windGust
                 windDirection := o.windDirection
                 updatedAt := now }
        else store q

/-! ### SSE broadcast hub (internal/sse/manager.go) -/

/-- `Message` from internal/sse/interface.go; the `interface{}` payload is
modelled as an opaque string. -/
structure Message where
  id : Int
  type : String
  stationID : String
  data : String
  timestamp : Int
deriving DecidableEq

/-- Go `message.Timestamp.Unix()`: whole seconds since the epoch, rounding
down (Lean's Int `/` is floor division, matching Go's `Unix`). -/
def unixSeconds (t : Int) : Int := t / nsPerSec

/-- The fill-in step at the top of `Broadcast`: stamp `time.Now()` when the
timestamp is unset, then derive the id from the timestamp's Unix seconds
when the id is unset. -/
def fillMessage (now : Int) (msg : Message) : Message :=
  let msg1 := if msg.timestamp = 0 then { msg with timestamp := now } else msg
  if msg1.id = 0 then { msg1 with id := unixSeconds msg1.timestamp } else msg1

/-- One subscriber: client id plus its buffered channel, modelled as the
channel's capacity (100 for channels made by `AddClient`) and the queue of
buffered messages. -/
structure Client where
  id : String
  capacity : Nat
  queue : List Message
deriving DecidableEq

/-- `make(chan Message, 100)` in `AddClient`. -/
def clientChanCapacity : Nat := 100

/-- The non-blocking send of `Broadcast` (`select { case ch <- msg: ... default: }`):
enqueue when the buffer has room, otherwise drop this subscriber's copy. -/
def trySend (msg : Message) (c : Client) : Client :=
  if c.queue.length < c.capacity then { c with queue := c.queue ++ [msg] } else c

/-- `Broadcast` from internal/sse/manager.go: fill id/timestamp, then
try-send the message to every subscriber. -/
def broadcast (now : Int) (msg : Message) (clients : List Client) : List Client :=
  clients.map (trySend (fillMessage now msg))

/-- A sequence of `Broadcast` calls, each with its own wall-clock instant. -/
def broadcastAll (evts : List (Int × Message)) (clients : List Client) : List Client :=
  evts.foldl (fun cs e => broadcast e.1 e.2 cs) clients

/-- What one fixed subscriber goes through under `broadcastAll`: a fold of
try-sends of the filled messages over its own queue only. -/
def clientAfterBroadcasts (evts : List (Int × Message)) (c : Client) : Client :=
  evts.foldl (fun c e => trySend (fillMessage e.1 e.2) c) c

/-! ### PollState persistence (`savePollingStates` / `loadPollingStates`)

`savePollingStates` JSON-marshals the state map and `loadPollingStates`
unmarshals it with no normalisation of the loaded values.  The marshalled
form of one `PollingState` is modelled as its list of JSON fields
(`time.Time` round-trips losslessly through RFC3339-with-nanoseconds,
`time.Duration` through int64 nanoseconds, so the encoding is modelled
value-faithfully). -/

/-- A JSON field value of the persisted state file. -/
inductive JsonValue where
  | num (n : Int)
  | rat (q : ℚ)
  | str (s : String)
deriving DecidableEq

/-- The JSON object `savePollingStates` writes for one station's state
(field names from the Go struct tags). -/
def encodePollingState (s : PollingState) : List (String × JsonValue) :=
  [("station_id", JsonValue.str s.stationID),
   ("current_interval", JsonValue.num s.currentInterval),
   ("consecutive_misses", JsonValue.num s.consecutiveMisses),
   ("last_polled", JsonValue.num s.lastPolled),
   ("last_observation", JsonValue.num s.lastObservation),
   ("success_rate", JsonValue.rat s.successRate),
   ("total_polls", JsonValue.num s.totalPolls),
   ("successful_polls", JsonValue.num s.successfulPolls)]

/-- Read an integer field. -/
def jsonNum : Option JsonValue → Option Int
  | some (JsonValue.num n) => some n
  | _ => none

/-- Read a rational (float) field. -/
def jsonRat : Option JsonValue → Option ℚ
  | some (JsonValue.rat q) => some q
  | _ => none

/-- Read a string field. -/
def jsonStr : Option JsonValue → Option String
  | some (JsonValue.str s) => some s
  | _ => none

/-- The JSON-unmarshal step of `loadPollingStates` for one station's object:
read every field back, with no validation or normalisation of the values. -/
def decodePollingState (j : List (String × JsonValue)) : Option PollingState := do
  let sid ← jsonStr (j.lookup "station_id")
  let ci ← jsonNum (j.lookup "current_interval")
  let cm ← jsonNum (j.lookup "consecutive_misses")
  let lp ← jsonNum (j.lookup "last_polled")
  let lo ← jsonNum (j.lookup "last_observation")
  let sr ← jsonRat (j.lookup "success_rate")
  let tp ← jsonNum (j.lookup "total_polls")
  let sp ← jsonNum (j.lookup "successful_polls")
  pure ⟨sid, ci, cm, lp, lo, sr, tp, sp⟩

/-! ### Reachable per-station scheduler states -/

/-- The canonical polling tiers (the four constants of manager.go). -/
def canonicalInterval (d : Int) : Prop :=
  d = IntervalFast ∨ d = IntervalMedium ∨ d = IntervalSlow ∨ d = IntervalUltraSlow

/-- The per-station states the scheduler can hold: lazy initialisation on the
first scheduling pass, the write-back of `updatePollingState` after a batch
result, the write-back of `updateFailedPollingState` after a failed batch
call, and reloading a state that `savePollingStates` persisted. -/
inductive ReachableState : PollingState → Prop where
  | init (sid : String) : ReachableState (newPollingState sid)
  | success (now : Int) (obs : List FMIWindObservation) {s : PollingState} :
      ReachableState s → ReachableState (updatePollingState now s obs).1
  | failed (now : Int) {s : PollingState} :
      ReachableState s → ReachableState (updateFailedPollingState now s)
  | persisted {s t : PollingState} :
      ReachableState s → decodePollingState (encodePollingState s) = some t →
      ReachableState t

/-! ## Helper lemmas -/

theorem canonical_getNextSlowerInterval (d : Int) :
    canonicalInterval (getNextSlowerInterval d) := by
  unfold getNextSlowerInterval canonicalInterval
  split_ifs <;> simp

theorem canonical_roundToStandardInterval (d : Int) :
    canonicalInterval (roundToStandardInterval d) := by
  unfold roundToStandardInterval canonicalInterval
  split_ifs <;> simp

theorem updateFailedPollingState_interval_cases (now : Int) (s : PollingState) :
    (updateFailedPollingState now s).currentInterval = s.currentInterval ∨
    (updateFailedPollingState now s).currentInterval =
      getNextSlowerInterval s.currentInterval := by
  unfold updateFailedPollingState
  dsimp only
  split
  · right; rfl
  · left; rfl

theorem updatePollingState_interval_cases (now : Int) (s : PollingState)
    (obs : List FMIWindObservation) :
    (updatePollingState now s obs).1.currentInterval = s.currentInterval ∨
    (∃ d, (updatePollingState now s obs).1.currentInterval = roundToStandardInterval d) ∨
    (updatePollingState now s obs).1.currentInterval =
      getNextSlowerInterval s.currentInterval := by
  cases obs with
  | nil =>
      unfold updatePollingState
      dsimp only
      split
      · right; right; rfl
      · left; rfl
  | cons o rest =>
      unfold updatePollingState
      dsimp only
      split
      · split
        · right; left; exact ⟨(analyzeObservationIntervals (o :: rest)).1, rfl⟩
        · left; rfl
      · left; rfl

theorem decode_encode_pollingState (s : PollingState) :
    decodePollingState (encodePollingState s) = some s := rfl

/-- Claim C1: for every reachable per-station scheduler state — lazy
initialisation on the first scheduling pass, any sequence of
`updatePollingState` / `updateFailedPollingState` write-backs, and reloading
a persisted state — the stored `CurrentInterval` is one of the four
canonical tiers Fast (1m), Medium (10m), Slow (60m), UltraSlow (24h). -/
theorem C1_tier_invariant (s : PollingState) (h : ReachableState s) :
    canonicalInterval s.currentInterval := by
  induction h with
  | init sid => exact Or.inl rfl
  | success now obs prev ih =>
      rcases updatePollingState_interval_cases now _ obs with heq | ⟨d, heq⟩ | heq
      · rw [heq]; exact ih
      · rw [heq]; exact canonical_roundToStandardInterval d
      · rw [heq]; exact canonical_getNextSlowerInterval _
  | failed now prev ih =>
      rcases updateFailedPollingState_interval_cases now _ with heq | heq
      · rw [heq]; exact ih
      · rw [heq]; exact canonical_getNextSlowerInterval _
  | persisted prev hdec ih =>
      rw [decode_encode_pollingState] at hdec
      cases hdec
      exact ih

/-- Witness for C1 at a concrete reachable state (a freshly initialised
station after one failed poll). -/
theorem C1_tier_invariant_witness :
    canonicalInterval (updateFailedPollingState 0 (newPollingState "101023")).currentInterval :=
  C1_tier_invariant _ (ReachableState.failed 0 (ReachableState.init "101023"))

/-- Claim C10: `updateFailedPollingState` modifies only `TotalPolls`,
`ConsecutiveMisses`, `LastPolled`, and — exactly when the incremented miss
count has reached 3 — `CurrentInterval`; `SuccessfulPolls`, `SuccessRate`,
`LastObservation` (and the station id) are untouched, so when the stored
rate was `SuccessfulPolls/TotalPolls` with at least one success it no longer
equals that ratio afterwards. -/
theorem rate_changes_when_totalPolls_grows {sp tp : Int} (hsp : 0 < sp) (htp : 0 < tp) :
    (sp : ℚ) / (tp : ℚ) ≠ (sp : ℚ) / ((tp : ℚ) + 1) := by
  have h1 : (0 : ℚ) < (tp : ℚ) := by exact_mod_cast htp
  have h2 : (0 : ℚ) < (sp : ℚ) := by exact_mod_cast hsp
  intro heq
  rw [div_eq_div_iff h1.ne' (by linarith)] at heq
  nlinarith

/-- Claim C10: `updateFailedPollingState` modifies only `TotalPolls`,
`ConsecutiveMisses`, `LastPolled`, and — exactly when the incremented miss
count has reached 3 — `CurrentInterval`; `SuccessfulPolls`, `SuccessRate`,
`LastObservation` (and the station id) are untouched, so when the stored
rate was `SuccessfulPolls/TotalPolls` with at least one success it no longer
equals that ratio afterwards. -/
theorem C10_failed_update_frame (now : Int) (s : PollingState) :
    (updateFailedPollingState now s).totalPolls = s.totalPolls + 1 ∧
    (updateFailedPollingState now s).consecutiveMisses = s.consecutiveMisses + 1 ∧
    (updateFailedPollingState now s).lastPolled = now ∧
    (updateFailedPollingState now s).successfulPolls = s.successfulPolls ∧
    (updateFailedPollingState now s).successRate = s.successRate ∧
    (updateFailedPollingState now s).lastObservation = s.lastObservation ∧
    (updateFailedPollingState now s).stationID = s.stationID ∧
    (updateFailedPollingState now s).currentInterval =
      (if 3 ≤ s.consecutiveMisses + 1 then getNextSlowerInterval s.currentInterval
       else s.currentInterval) ∧
    (s.successRate = (s.successfulPolls : ℚ) / (s.totalPolls : ℚ) →
      0 < s.successfulPolls → 0 < s.totalPolls →
      (updateFailedPollingState now s).successRate ≠
        ((updateFailedPollingState now s).successfulPolls : ℚ) /
          ((updateFailedPollingState now s).totalPolls : ℚ)) := by
  unfold updateFailedPollingState
  dsimp only
  split
  · rename_i hge
    refine ⟨rfl, rfl, rfl, rfl, rfl, rfl, rfl, rfl, ?_⟩
    intro hrate hsp htp
    dsimp only
    rw [hrate]
    have hcast : (((s.totalPolls + 1 : Int) : ℚ)) = (s.totalPolls : ℚ) + 1 := by push_cast; ring
    rw [hcast]
    exact rate_changes_when_totalPolls_grows hsp htp
  · rename_i hlt
    refine ⟨rfl, rfl, rfl, rfl, rfl, rfl, rfl, rfl, ?_⟩
    intro hrate hsp htp
    dsimp only
    rw [hrate]
    have hcast : (((s.totalPolls + 1 : Int) : ℚ)) = (s.totalPolls : ℚ) + 1 := by push_cast; ring
    rw [hcast]
    exact rate_changes_when_totalPolls_grows hsp htp

/-- A station with 1 success out of 2 polls and a correctly stored rate 1/2. -/
def st10 : PollingState :=
  { stationID := "101023"
    currentInterval := IntervalFast
    consecutiveMisses := 0
    lastPolled := 0
    lastObservation := 0
    successRate := 1 / 2
    totalPolls := 2
    successfulPolls := 1 }

/-- Witness for C10: a station with 1 success out of 2 polls and a correct
stored rate of 1/2. -/
theorem C10_failed_update_frame_witness :
    (updateFailedPollingState 7 st10).totalPolls = st10.totalPolls + 1 ∧
    (updateFailedPollingState 7 st10).successRate ≠
      ((updateFailedPollingState 7 st10).successfulPolls : ℚ) /
        ((updateFailedPollingState 7 st10).totalPolls : ℚ) :=
  ⟨(C10_failed_update_frame 7 st10).1,
   (C10_failed_update_frame 7 st10).2.2.2.2.2.2.2.2
     (by norm_num [st10]) (by norm_num [st10]) (by norm_num [st10])⟩

theorem updatePollingState_nil (now : Int) (s : PollingState) :
    (updatePollingState now s []).1 =
      if 2 ≤ s.consecutiveMisses + 1 then
        { s with lastPolled := now
                 totalPolls := s.totalPolls + 1
                 successRate := (s.successfulPolls : ℚ) / ((s.totalPolls + 1 : Int) : ℚ)
                 consecutiveMisses := 0
                 currentInterval := getNextSlowerInterval s.currentInterval }
      else
        { s with lastPolled := now
                 totalPolls := s.totalPolls + 1
                 successRate := (s.successfulPolls : ℚ) / ((s.totalPolls + 1 : Int) : ℚ)
                 consecutiveMisses := s.consecutiveMisses + 1 } := rfl

/-- Claim C2 counterexample: two consecutive failed batch calls on a fresh
Fast-tier station with miss count 0 leave the tier at Fast and the miss
count at 2 — contrary to the claim, two consecutive misses of the
failed-call kind neither demote the tier one step nor reset the counter
(the failed path demotes only at the third consecutive miss and never
resets). -/
theorem C2_counterexample :
    (updateFailedPollingState 0 (updateFailedPollingState 0
        (newPollingState "101023"))).currentInterval = IntervalFast ∧
    (updateFailedPollingState 0 (updateFailedPollingState 0
        (newPollingState "101023"))).consecutiveMisses = 2 ∧
    IntervalFast ≠ IntervalMedium := by decide

/-- Claim C2 as amended: two consecutive *empty-but-successful* fetches
demote the tier exactly one step (saturating at UltraSlow, since
`getNextSlowerInterval` fixes UltraSlow) and reset the miss counter; a
*failed batch call* merely increments the miss counter and demotes — without
resetting — only once the incremented counter has reached 3; and any success
with at least one observation resets `ConsecutiveMisses` to 0. -/
theorem C2_amended (now1 now2 now3 : Int) (s : PollingState)
    (obs : List FMIWindObservation) :
    (s.consecutiveMisses = 0 →
      ((updatePollingState now2 (updatePollingState now1 s []).1 []).1).currentInterval =
          getNextSlowerInterval s.currentInterval ∧
      ((updatePollingState now2 (updatePollingState now1 s []).1 []).1).consecutiveMisses = 0) ∧
    ((updateFailedPollingState now1 s).consecutiveMisses = s.consecutiveMisses + 1 ∧
     (updateFailedPollingState now1 s).currentInterval =
       (if 3 ≤ s.consecutiveMisses + 1 then getNextSlowerInterval s.currentInterval
        else s.currentInterval)) ∧
    (obs ≠ [] → ((updatePollingState now3 s obs).1).consecutiveMisses = 0) ∧
    getNextSlowerInterval IntervalUltraSlow = IntervalUltraSlow := by
  refine ⟨?_, ?_, ?_, by decide⟩
  · intro h0
    rw [updatePollingState_nil now1 s, if_neg (by omega)]
    rw [updatePollingState_nil]
    dsimp only
    rw [if_pos (by omega)]
    exact ⟨rfl, rfl⟩
  · unfold updateFailedPollingState
    dsimp only
    split
    · exact ⟨rfl, rfl⟩
    · exact ⟨rfl, rfl⟩
  · intro hne
    cases obs with
    | nil => exact absurd rfl hne
    | cons o rest =>
        unfold updatePollingState
        dsimp only
        split
        · split <;> rfl
        · rfl

/-- Witness for C2 as amended: a fresh Fast-tier station; two empty fetches
demote Fast to Medium with the counter reset, and a one-observation success
resets the counter. -/
theorem C2_amended_witness :
    ((updatePollingState 0 (updatePollingState 0 (newPollingState "101023") []).1 []).1).currentInterval =
        getNextSlowerInterval (newPollingState "101023").currentInterval ∧
    ((updatePollingState 0 (newPollingState "101023")
        [⟨0, 5, 0, 0⟩]).1).consecutiveMisses = 0 :=
  ⟨((C2_amended 0 0 0 (newPollingState "101023") [⟨0, 5, 0, 0⟩]).1 rfl).1,
   (C2_amended 0 0 0 (newPollingState "101023") [⟨0, 5, 0, 0⟩]).2.2.1 (by decide)⟩

/-- Claim C3 counterexample: with no SSE subscriber connected the effective
polling interval is `IntervalSlow` (60m) — not the slowest tier
`IntervalUltraSlow` (24h); a station whose stored tier is UltraSlow is even
polled *faster* when nobody is watching. -/
theorem C3_counterexample :
    getEffectivePollingInterval IntervalFast false = IntervalSlow ∧
    getEffectivePollingInterval IntervalUltraSlow false = IntervalSlow ∧
    IntervalSlow ≠ IntervalUltraSlow := by decide

/-- Claim C3 as amended: with no SSE subscriber connected the effective
interval used by the due check is `IntervalSlow` (60m) regardless of the
stored tier; with a subscriber connected it is the stored tier; and a
station is selected as due exactly when `now − lastPolled` has reached its
effective interval. -/
theorem C3_amended (base now : Int) (hasClients : Bool)
    (states : List PollingState) (s : PollingState) :
    getEffectivePollingInterval base false = IntervalSlow ∧
    getEffectivePollingInterval base true = base ∧
    (s ∈ dueStates now hasClients states ↔
      s ∈ states ∧
        getEffectivePollingInterval s.currentInterval hasClients ≤ now - s.lastPolled) := by
  refine ⟨rfl, rfl, ?_⟩
  unfold dueStates isDue
  simp [List.mem_filter]

/-- Witness for C3 as amended at a concrete station: a fresh station is due
for a connected subscriber at `now = IntervalFast`. -/
theorem C3_amended_witness :
    getEffectivePollingInterval IntervalUltraSlow false = IntervalSlow ∧
    getEffectivePollingInterval IntervalUltraSlow true = IntervalUltraSlow ∧
    (newPollingState "101023" ∈
        dueStates IntervalFast true [newPollingState "101023"] ↔
      newPollingState "101023" ∈ [newPollingState "101023"] ∧
        getEffectivePollingInterval (newPollingState "101023").currentInterval true ≤
          IntervalFast - (newPollingState "101023").lastPolled) :=
  C3_amended IntervalUltraSlow IntervalFast true
    [newPollingState "101023"] (newPollingState "101023")

theorem analyzeObservationIntervals_pair (o1 o2 : FMIWindObservation)
    (h : o2.timestamp - o1.timestamp = 600 * nsPerSec) :
    analyzeObservationIntervals [o1, o2] = (600 * nsPerSec, true) := by
  have hgaps : observationGaps [o1, o2] = [o2.timestamp - o1.timestamp] := rfl
  unfold analyzeObservationIntervals
  rw [hgaps, h, if_neg (by norm_num)]
  decide

/-- Claim C5 counterexample: a fresh Fast-tier station receiving two
observations 10 minutes apart keeps tier Fast — `updatePollingState` only
changes the interval when the detected gap is *faster* than the current one,
so the claimed Fast → Medium transition does not happen. -/
theorem C5_counterexample :
    ((updatePollingState (700 * nsPerSec) (newPollingState "101023")
        [⟨0, 5, 0, 0⟩, ⟨600 * nsPerSec, 5, 0, 0⟩]).1).currentInterval = IntervalFast ∧
    IntervalFast ≠ IntervalMedium := by decide

/-- Claim C5 as amended: the 10-minute observation cadence moves a station to
Medium only when that is a *promotion*: for a station at tier Slow or
UltraSlow, a result with two observations spaced 10 minutes apart sets the
tier to Medium immediately, regardless of the current miss count; at Fast
the tier is left unchanged (see the counterexample). -/
theorem C5_amended (now : Int) (s : PollingState) (o1 o2 : FMIWindObservation)
    (htier : s.currentInterval = IntervalSlow ∨ s.currentInterval = IntervalUltraSlow)
    (hgap : o2.timestamp - o1.timestamp = 600 * nsPerSec) :
    ((updatePollingState now s [o1, o2]).1).currentInterval = IntervalMedium := by
  unfold updatePollingState
  dsimp only
  rw [if_pos (by norm_num)]
  rw [analyzeObservationIntervals_pair o1 o2 hgap]
  dsimp only
  have hlt : (600 : Int) * nsPerSec < s.currentInterval := by
    rcases htier with h | h <;> rw [h] <;>
      norm_num [nsPerSec, IntervalSlow, IntervalUltraSlow]
  rw [if_pos ⟨rfl, hlt⟩]
  show roundToStandardInterval (600 * nsPerSec) = IntervalMedium
  decide

/-- Witness for C5 as amended: a Slow-tier station with a nonzero miss count
and observations at 0 s and 600 s is promoted to Medium. -/
theorem C5_amended_witness :
    ((updatePollingState (700 * nsPerSec)
        { stationID := "101023", currentInterval := IntervalSlow,
          consecutiveMisses := 1, lastPolled := 0, lastObservation := 0,
          successRate := 0, totalPolls := 3, successfulPolls := 1 }
        [⟨0, 5, 0, 0⟩, ⟨600 * nsPerSec, 5, 0, 0⟩]).1).currentInterval = IntervalMedium :=
  C5_amended (700 * nsPerSec) _ ⟨0, 5, 0, 0⟩ ⟨600 * nsPerSec, 5, 0, 0⟩
    (Or.inl rfl) (by decide)

theorem chunksOfAux_length_le {α : Type} (k : Nat) :
    ∀ (fuel : Nat) (l : List α) (b : List α), b ∈ chunksOfAux k fuel l → b.length ≤ k := by
  intro fuel
  induction fuel with
  | zero => intro l b hb; simp [chunksOfAux] at hb
  | succ f ih =>
      intro l b hb
      cases l with
      | nil => simp [chunksOfAux] at hb
      | cons a rest =>
          rw [chunksOfAux, List.mem_cons] at hb
          rcases hb with h | h
          · subst h
            simp [List.length_take]
          · exact ih _ _ h

/-- Claim C4: every fetch batch of one polling round holds at most
`maxBatchSize = 20` stations, and membership in a time-window group is
decided exactly by the effective window start (default start, or last
observation + 1s truncated to the second, if later) — so two due stations
with the same effective start always land under the same group key, never
split across two keys. -/
theorem C4_batching (defaultStart : Int) (toPoll : List PollingState) (k : Int)
    (b : List PollingState) (s1 s2 : PollingState) :
    (b ∈ batchesForGroup defaultStart toPoll k → b.length ≤ maxBatchSize) ∧
    maxBatchSize = 20 ∧
    (s1 ∈ toPoll →
      (s1 ∈ timeWindowGroup defaultStart toPoll k ↔
        effectiveStartTime defaultStart s1 = k)) ∧
    (s1 ∈ toPoll → s2 ∈ toPoll →
      effectiveStartTime defaultStart s1 = effectiveStartTime defaultStart s2 →
      s1 ∈ timeWindowGroup defaultStart toPoll (effectiveStartTime defaultStart s1) ∧
      s2 ∈ timeWindowGroup defaultStart toPoll (effectiveStartTime defaultStart s1)) := by
  refine ⟨?_, rfl, ?_, ?_⟩
  · intro hb
    exact chunksOfAux_length_le maxBatchSize _ _ _ hb
  · intro h1
    unfold timeWindowGroup
    simp [List.mem_filter, h1]
  · intro h1 h2 he
    unfold timeWindowGroup
    constructor <;> simp [List.mem_filter, h1, h2, he]

/-- Witness for C4: two fresh stations with the same (default) effective
start form one group and one batch of 2 ≤ 20 stations. -/
theorem C4_batching_witness :
    ([newPollingState "a", newPollingState "b"] : List PollingState).length ≤ maxBatchSize ∧
    newPollingState "a" ∈
      timeWindowGroup 0 [newPollingState "a", newPollingState "b"] 0 ∧
    newPollingState "b" ∈
      timeWindowGroup 0 [newPollingState "a", newPollingState "b"] 0 :=
  ⟨(C4_batching 0 [newPollingState "a", newPollingState "b"] 0
      [newPollingState "a", newPollingState "b"]
      (newPollingState "a") (newPollingState "b")).1 (by decide),
   ((C4_batching 0 [newPollingState "a", newPollingState "b"] 0
      [] (newPollingState "a") (newPollingState "b")).2.2.1
      (by decide)).mpr (by decide),
   ((C4_batching 0 [newPollingState "a", newPollingState "b"] 0
      [] (newPollingState "b") (newPollingState "a")).2.2.1
      (by decide)).mpr (by decide)⟩

theorem netWhileLockedAux_all_net (r : List LockEv) :
    ∀ (l : List LockEv), (∀ e ∈ l, e = LockEv.net) →
      netWhileLockedAux 0 (l ++ r) = netWhileLockedAux 0 r := by
  intro l
  induction l with
  | nil => intro _; rfl
  | cons e rest ih =>
      intro h
      have he : e = LockEv.net := h e (by simp)
      subst he
      rw [List.cons_append, netWhileLockedAux]
      rw [ih (fun x hx => h x (by simp [hx]))]
      simp

theorem processBatchedPollingTrace_all_net (defaultStart : Int)
    (toPoll : List PollingState) :
    ∀ e ∈ processBatchedPollingTrace defaultStart toPoll, e = LockEv.net := by
  intro e he
  unfold processBatchedPollingTrace at he
  simp only [List.mem_flatMap, List.mem_map] at he
  obtain ⟨k, -, a, -, ha⟩ := he
  exact ha.symm

theorem netWhileLocked_lock_unlock_cons (tr : List LockEv) :
    netWhileLocked (LockEv.lock :: LockEv.unlock :: tr) = netWhileLocked tr := rfl

/-- Claim C6 counterexample: the legacy scheduler round in the root
`main.go` (`pollDueStations` there takes `pollingStatesMutex.Lock()` with a
deferred unlock) runs its batch fetch with the PollState lock held: with one
due station its trace is lock–net–unlock, and the net event happens at lock
depth 1. -/
theorem C6_counterexample :
    netWhileLocked (legacyPollDueStationsTrace IntervalFast 0
      [newPollingState "101023"]) = true := by decide

/-- Claim C6 as amended: the `internal/observations` manager's
`pollDueStations` does follow the three-phase pattern — copy due states
under the lock, fetch all batches with no lock held, write back under the
lock — so no network call of its round ever runs while the PollState lock
is held; the legacy `main.go` scheduler round, however, holds the lock
across its fetches (see the counterexample). -/
theorem C6_amended (now : Int) (hasClients : Bool) (defaultStart : Int)
    (states : List PollingState) :
    netWhileLocked (pollDueStationsTrace now hasClients defaultStart states) = false := by
  unfold pollDueStationsTrace
  dsimp only
  rw [netWhileLocked_lock_unlock_cons]
  split
  · rfl
  · rw [netWhileLocked,
      netWhileLockedAux_all_net _ _ (processBatchedPollingTrace_all_net _ _)]
    rfl

/-- Witness for C6 as amended: the manager's round over one due station at a
concrete instant performs its fetch with the lock released. -/
theorem C6_amended_witness :
    netWhileLocked (pollDueStationsTrace IntervalFast true 0
      [newPollingState "101023"]) = false :=
  C6_amended IntervalFast true 0 [newPollingState "101023"]

theorem broadcastAll_map (evts : List (Int × Message)) (clients : List Client) :
    broadcastAll evts clients = clients.map (clientAfterBroadcasts evts) := by
  induction evts generalizing clients with
  | nil =>
      show clients = clients.map (clientAfterBroadcasts [])
      rw [show clientAfterBroadcasts [] = fun c => c from rfl, List.map_id']
  | cons e rest ih =>
      show broadcastAll rest (broadcast e.1 e.2 clients) =
        clients.map (clientAfterBroadcasts (e :: rest))
      rw [ih, broadcast, List.map_map]
      rfl

theorem clientAfterBroadcasts_queue (evts : List (Int × Message)) (c : Client)
    (h : c.queue.length + evts.length ≤ c.capacity) :
    (clientAfterBroadcasts evts c).queue =
      c.queue ++ evts.map (fun e => fillMessage e.1 e.2) := by
  induction evts generalizing c with
  | nil => simp [clientAfterBroadcasts]
  | cons e rest ih =>
      have hlt : c.queue.length < c.capacity := by
        simp only [List.length_cons] at h
        omega
      have hsend : trySend (fillMessage e.1 e.2) c =
          { c with queue := c.queue ++ [fillMessage e.1 e.2] } := by
        unfold trySend
        rw [if_pos hlt]
      show (clientAfterBroadcasts rest (trySend (fillMessage e.1 e.2) c)).queue = _
      rw [hsend, ih _ (by
        simp only [List.length_append, List.length_cons, List.length_nil] at h ⊢
        omega)]
      simp

/-- Claim C7: a Broadcast round never blocks or errors (it is a total
function of the subscriber list, also for zero subscribers); each
subscriber's outcome depends only on its own queue, so a full queue drops
the event for that subscriber only; and a subscriber whose queue never
fills receives all N published events in publish order. -/
theorem C7_broadcast_isolation (evts : List (Int × Message))
    (clients : List Client) (c : Client) :
    broadcastAll evts [] = [] ∧
    broadcastAll evts clients = clients.map (clientAfterBroadcasts evts) ∧
    (c.queue.length + evts.length ≤ c.capacity →
      (clientAfterBroadcasts evts c).queue =
        c.queue ++ evts.map (fun e => fillMessage e.1 e.2)) :=
  ⟨by rw [broadcastAll_map]; rfl, broadcastAll_map evts clients,
   clientAfterBroadcasts_queue evts c⟩

/-- A healthy subscriber with an empty 100-slot queue. -/
def healthyClient : Client :=
  { id := "healthy", capacity := clientChanCapacity, queue := [] }

/-- A stalled subscriber whose 100-slot queue is already full. -/
def stalledClient : Client :=
  { id := "stalled", capacity := clientChanCapacity,
    queue := List.replicate clientChanCapacity ⟨1, "data", "s0", "old", nsPerSec⟩ }

/-- Three broadcast events published at seconds 1, 2, 3. -/
def witnessEvents : List (Int × Message) :=
  [(nsPerSec, ⟨0, "data", "s1", "p1", 0⟩),
   (2 * nsPerSec, ⟨0, "data", "s2", "p2", 0⟩),
   (3 * nsPerSec, ⟨0, "status", "s3", "p3", 0⟩)]

/-- Witness for C7: broadcasting 3 events to a healthy and a saturated
subscriber delivers all 3 in order to the healthy one while the saturated
one only drops — queue lengths end at 3 and 100. -/
theorem C7_broadcast_isolation_witness :
    (clientAfterBroadcasts witnessEvents healthyClient).queue =
      healthyClient.queue ++ witnessEvents.map (fun e => fillMessage e.1 e.2) ∧
    (broadcastAll witnessEvents [healthyClient, stalledClient]).map
      (fun c => c.queue.length) = [3, 100] :=
  ⟨(C7_broadcast_isolation witnessEvents [healthyClient, stalledClient]
      healthyClient).2.2 (by decide),
   by decide⟩

/-- Claim C8 counterexample: the validity filter of `fetchWindDataBatch`
checks only the wind speed, so a reading with wind direction 400° (> 360°)
passes the filter and `updateWindData` upserts it into the latest-value
store. -/
theorem C8_counterexample :
    filterValidObservations [⟨nsPerSec, some 5, none, some 400⟩] =
      [⟨nsPerSec, 5, 0, 400⟩] ∧
    (updateWindData [⟨"101023", "Emasalo", "Porvoo", 0, 0⟩]
        (fun _ => none) (2 * nsPerSec) "101023" ⟨nsPerSec, 5, 0, 400⟩) "101023" =
      some ⟨"101023", "Emasalo", "Porvoo", nsPerSec, 5, 0, 400, 2 * nsPerSec⟩ ∧
    (360 : ℚ) < 400 := by decide

/-- Claim C8 as amended: the collaborator-boundary filter guarantees
`0 ≤ WindSpeed < 100` — negative speeds (and speeds ≥ 100) never reach the
latest-value store, and upserting filtered readings preserves that store
invariant — but wind direction is not validated, so a reading with
direction > 360° can reach the store (see the counterexample). -/
theorem C8_amended (l : List ParsedObservation) (w : FMIWindObservation)
    (stations : List Station) (store : WindDataStore) (now : Int)
    (sid : String) (o : FMIWindObservation) :
    (w ∈ filterValidObservations l → 0 ≤ w.windSpeed ∧ w.windSpeed < 100) ∧
    ((∀ q r, store q = some r → 0 ≤ r.windSpeed ∧ r.windSpeed < 100) →
      0 ≤ o.windSpeed ∧ o.windSpeed < 100 →
      ∀ q r, updateWindData stations store now sid o q = some r →
        0 ≤ r.windSpeed ∧ r.windSpeed < 100) := by
  constructor
  · intro hw
    unfold filterValidObservations at hw
    rw [List.mem_filter] at hw
    exact of_decide_eq_true hw.2
  · intro hstore ho q r hq
    unfold updateWindData at hq
    cases hg : getStation stations sid with
    | none => rw [hg] at hq; exact hstore q r hq
    | some station =>
        rw [hg] at hq
        dsimp only at hq
        by_cases hqs : q = sid
        · rw [if_pos hqs] at hq
          cases hq
          exact ho
        · rw [if_neg hqs] at hq
          exact hstore q r hq

/-- Witness for C8: a batch containing a negative-speed reading and a valid
one keeps only the valid one, and the upserted store entry satisfies the
speed bound. -/
theorem C8_amended_witness :
    (0 ≤ (⟨0, (5 : ℚ), 0, 0⟩ : FMIWindObservation).windSpeed ∧
      (⟨0, (5 : ℚ), 0, 0⟩ : FMIWindObservation).windSpeed < 100) ∧
    (0 ≤ (⟨"101023", "Emasalo", "Porvoo", 0, 5, 0, 0, 7⟩ : WindObservation).windSpeed ∧
      (⟨"101023", "Emasalo", "Porvoo", 0, 5, 0, 0, 7⟩ : WindObservation).windSpeed < 100) :=
  ⟨(C8_amended [⟨0, some (-1), none, none⟩, ⟨0, some 5, none, none⟩] ⟨0, 5, 0, 0⟩
      [] (fun _ => none) 0 "x" ⟨0, 5, 0, 0⟩).1 (by decide),
   (C8_amended [] ⟨0, 5, 0, 0⟩ [⟨"101023", "Emasalo", "Porvoo", 0, 0⟩]
      (fun _ => none) 7 "101023" ⟨0, 5, 0, 0⟩).2
      (fun q r h => absurd h (by simp)) (by decide)
      "101023" ⟨"101023", "Emasalo", "Porvoo", 0, 5, 0, 0, 7⟩ (by decide)⟩

/-- Claim C9 counterexample: the Broadcast id is the timestamp's Unix
*seconds*, so two events published half a second apart (both with unset id
and timestamp) receive the *same* id — the later id is not strictly
greater. -/
theorem C9_counterexample :
    (fillMessage (100 * nsPerSec) ⟨0, "data", "101023", "", 0⟩).id =
      (fillMessage (100 * nsPerSec + nsPerSec / 2) ⟨0, "data", "101023", "", 0⟩).id ∧
    (100 * nsPerSec : Int) < 100 * nsPerSec + nsPerSec / 2 := by decide

/-- Claim C9 as amended: for events published with unset id and timestamp,
Broadcast fills the id with the publish instant's Unix seconds; across two
successive publishes with a non-decreasing clock the ids are non-decreasing,
and strictly greater exactly when the later publish falls in a later whole
second (within the same second the ids coincide — see the counterexample). -/
theorem C9_amended (m1 m2 : Message) (now1 now2 : Int)
    (h1 : m1.id = 0) (h2 : m2.id = 0)
    (ht1 : m1.timestamp = 0) (ht2 : m2.timestamp = 0)
    (hle : now1 ≤ now2) :
    (fillMessage now1 m1).id ≤ (fillMessage now2 m2).id ∧
    (unixSeconds now1 < unixSeconds now2 →
      (fillMessage now1 m1).id < (fillMessage now2 m2).id) := by
  have e1 : (fillMessage now1 m1).id = unixSeconds now1 := by
    unfold fillMessage
    dsimp only
    rw [if_pos ht1]
    dsimp only
    rw [if_pos h1]
  have e2 : (fillMessage now2 m2).id = unixSeconds now2 := by
    unfold fillMessage
    dsimp only
    rw [if_pos ht2]
    dsimp only
    rw [if_pos h2]
  rw [e1, e2]
  exact ⟨Int.ediv_le_ediv (by norm_num [nsPerSec]) hle, fun h => h⟩

/-- Witness for C9: publishes at seconds 1 and 3 give ids 1 ≤ 3, and the
second-crossing makes the inequality strict. -/
theorem C9_amended_witness :
    (fillMessage nsPerSec ⟨0, "data", "s", "", 0⟩).id ≤
      (fillMessage (3 * nsPerSec) ⟨0, "status", "s", "", 0⟩).id ∧
    (fillMessage nsPerSec ⟨0, "data", "s", "", 0⟩).id <
      (fillMessage (3 * nsPerSec) ⟨0, "status", "s", "", 0⟩).id :=
  ⟨(C9_amended ⟨0, "data", "s", "", 0⟩ ⟨0, "status", "s", "", 0⟩
      nsPerSec (3 * nsPerSec) rfl rfl rfl rfl (by decide)).1,
   (C9_amended ⟨0, "data", "s", "", 0⟩ ⟨0, "status", "s", "", 0⟩
      nsPerSec (3 * nsPerSec) rfl rfl rfl rfl (by decide)).2 (by decide)⟩

end Windz
